import Mathlib

/-!
Verification development for the StreamEdge authentication / token-lifecycle
subsystem (`Services/auth_service.py`) and its TTL cache (`Services/cache_service.py`).

Modelling conventions (shallow embedding):
* Timestamps and durations are rationals (seconds since the epoch); the
  upstream `expiresIn` duration is a rational number of milliseconds, so the
  source's `expiresIn / 1000` true division is exact here.  Python's `int()`
  truncation toward zero is modelled by `pyTrunc`.
* Python dicts used as the cache maps are modelled as functions
  `String → Option _`; `dict.get(k, d)` is `(m k).getD d`.
* Network requests are modelled by an oracle (`NetEnv`) giving, for each of
  the three POST endpoints, either a decoded JSON response or the fact that
  the request raised an exception (`NetResult.exn`).  JSON fields that may be
  missing are `Option`s; a missing field read with `[...]` raises, which the
  embedding propagates to the enclosing `try/except` exactly as the source
  orders its statements.
* A compound call (login / refresh and everything it triggers) is modelled as
  happening at one instant `now`; every `time.time()` inside it reads `now`.
* The optional `config_service` / `system_service` collaborators are absent
  (the constructor-default configuration); `cache_service` is present, and
  file writes/removals succeed (no I/O fault model).
-/

namespace StreamEdge

/-- Python truncation toward zero, the behaviour of `int(x)` on a number. -/
def pyTrunc (q : ℚ) : ℤ :=
  if 0 ≤ q then ⌊q⌋ else ⌈q⌉

/-- Python `str(x)` for an optional string (`None` prints as `"None"`),
as interpolated by an f-string. -/
def pyStrOpt : Option String → String
  | none => "None"
  | some s => s

/-- Python truthiness of `self.refresh_token` / `self.username` style values:
`None` and the empty string are falsy. -/
def truthyStr : Option String → Bool
  | none => false
  | some s => !s.isEmpty

/-- Models `str.startswith(pre)` at the character-list level. -/
def pyStartsWith (s pre : String) : Bool :=
  pre.data.isPrefixOf s.data

/-- Models `str.endswith(suf)` at the character-list level. -/
def pyEndsWith (s suf : String) : Bool :=
  suf.data.isSuffixOf s.data

/-- Models the Python slice `s[:-1]`. -/
def pyDropLast (s : String) : String :=
  ⟨s.data.dropLast⟩

/-- Models `urlparse(url).netloc` for `scheme://host/...` URLs: everything
after the first `://` up to the next `/` (empty when there is no scheme). -/
def afterScheme : List Char → List Char
  | ':' :: '/' :: '/' :: rest => rest
  | _ :: rest => afterScheme rest
  | [] => []

def netloc (url : String) : String :=
  ⟨(afterScheme url.data).takeWhile (fun c => c ≠ '/')⟩

/-- `TIME_CONSTANTS["TOKEN_REFRESH_BEFORE_EXPIRY"]` from
`Services/utils/constants.py` (the refresh margin, seconds). -/
def TOKEN_REFRESH_BEFORE_EXPIRY : ℚ := 60

/-- Default `CACHE_TIMEOUT` used by `CacheService.store_in_cache` when no
timeout is given (`self._get_config("CACHE_TIMEOUT", 3600)`). -/
def DEFAULT_CACHE_TIMEOUT : ℚ := 3600

/-- Seven days in seconds, the cache-TTL ceiling `7 * 24 * 3600`. -/
def SEVEN_DAYS : ℤ := 604800

/-! ## The token record stored in the cache and the token file

`AuthService._store_tokens_in_cache` / `_save_tokens` build the dict
`{"access_token": ..., "refresh_token": ..., "expires": ..., "device_id": ...}`. -/

structure TokenData where
  access_token : Option String
  refresh_token : Option String
  expires : ℚ
  device_id : String
deriving DecidableEq, Repr

/-- Values stored in the `CacheService` maps: the category placeholders are
empty dicts, the auth service stores token dicts and the device-id string;
`nat` stands for any other opaque payload. -/
inductive CacheVal where
  | emptyDict
  | tok (t : TokenData)
  | str (s : String)
  | nat (n : ℕ)
deriving DecidableEq, Repr

/-! ## CacheService (`Services/cache_service.py`) -/

/-- The two dicts `self._cache` and `self._cache_expiry` of `CacheService`. -/
structure CacheState where
  cache : String → Option CacheVal
  expiry : String → Option ℚ

/-- `CacheService.initialize_cache`: the value map holds the four category
keys mapped to empty dicts, the expiry map is empty. -/
def initCache : CacheState where
  cache := fun k =>
    if k = "channels" ∨ k = "streams" ∨ k = "epg" ∨ k = "devices" then
      some CacheVal.emptyDict
    else none
  expiry := fun _ => none

/-- `CacheService.store_in_cache(cache_key, data, cache_timeout)` with an
explicit timeout: sets the value and records expiry `time.time() + timeout`. -/
def store_in_cache (st : CacheState) (key : String) (v : CacheVal)
    (timeout : ℚ) (now : ℚ) : CacheState where
  cache := fun k => if k = key then some v else st.cache k
  expiry := fun k => if k = key then some (now + timeout) else st.expiry k

/-- Result of `CacheService.get_from_cache`: the returned data, the cache
state afterwards, and whether `fetch_function` was invoked. -/
structure GetResult where
  data : Option CacheVal
  state : CacheState
  fetchInvoked : Bool

/-- `CacheService.get_from_cache(cache_key, fetch_function, ...)`.
`fetchResult` is the value `fetch_function(*args, **kwargs)` would return.
Hit test (source line 57): `cache_key in self._cache and
time.time() < self._cache_expiry.get(cache_key, 0)`.  On a miss the fetch
result is stored only when it is not `None` (with the default timeout). -/
def get_from_cache (st : CacheState) (key : String) (now : ℚ)
    (fetchResult : Option CacheVal) (defaultTimeout : ℚ) : GetResult :=
  if (st.cache key).isSome = true ∧ now < (st.expiry key).getD 0 then
    ⟨st.cache key, st, false⟩
  else
    match fetchResult with
    | none => ⟨none, st, true⟩
    | some v => ⟨some v, store_in_cache st key v defaultTimeout now, true⟩

/-- `CacheService.clear_cache(cache_key)`; always returns `True`.
Branch order as in the source: `None` re-initializes everything; a key that
is literally present is deleted (with its expiry record if any); otherwise a
trailing-`*` argument deletes every *stored* key starting with the prefix
(and the expiry records of exactly those stored keys); otherwise no-op. -/
def clear_cache (st : CacheState) (arg : Option String) : Bool × CacheState :=
  match arg with
  | none => (true, initCache)
  | some key =>
    if (st.cache key).isSome = true then
      (true,
        ⟨fun k => if k = key then none else st.cache k,
         fun k => if k = key then none else st.expiry k⟩)
    else if pyEndsWith key "*" = true then
      let pre := pyDropLast key
      (true,
        ⟨fun k => if pyStartsWith k pre = true then none else st.cache k,
         fun k =>
           if pyStartsWith k pre = true ∧ (st.cache k).isSome = true then none
           else st.expiry k⟩)
    else (true, st)

/-! ## AuthService (`Services/auth_service.py`) -/

/-- The configuration loaded in `AuthService._load_config` /
`__init__` that the token lifecycle reads. -/
structure AuthConfig where
  username : String
  password : String
  language : String
  base_url : String
  user_agent : String
  device_id : String

/-- The cache key `f"auth_tokens_{self.language}"`. -/
def authKey (cfg : AuthConfig) : String := "auth_tokens_" ++ cfg.language

/-- The cache key `f"device_id_{self.language}"`. -/
def deviceKey (cfg : AuthConfig) : String := "device_id_" ++ cfg.language

/-- The mutable token state of `AuthService` together with the cache it
shares and the persisted token file (`self.token_file`). -/
structure AuthState where
  access_token : Option String
  refresh_token : Option String
  token_expires : ℚ
  cache : CacheState
  tokenFile : Option TokenData

/-- Decoded JSON `token` object of the auth endpoints; each field may be
missing, in which case indexing it raises. -/
structure TokenResp where
  accessToken : Option String
  refreshToken : Option String
  /-- `expiresIn`, milliseconds. -/
  expiresIn : Option ℚ
deriving DecidableEq, Repr

/-- Outcome of one upstream POST: the request raised, or a decoded response
with its `success` flag (missing `success` decodes as `false`) and optional
`token` object. -/
inductive NetResult where
  | exn
  | resp (success : Bool) (token : Option TokenResp)
deriving DecidableEq, Repr

/-- The network oracle for one compound call: responses of the three
endpoints `/v2/auth/init`, `/v2/auth/login`, `/v2/auth/tokens`. -/
structure NetEnv where
  initResp : NetResult
  loginResp : NetResult
  refreshResp : NetResult

/-- Observable events of one compound call, in order: entering `login()`
and the `clear_cache` invalidation performed by `refresh_access_token`. -/
inductive AEvent where
  | loginAttempt
  | cacheInvalidated
deriving DecidableEq, Repr

/-- Result of `login` / `refresh_access_token`: the returned boolean, the
state afterwards, and the emitted events. -/
structure OpResult where
  ret : Bool
  st : AuthState
  evs : List AEvent

/-- The token dict built by `_save_tokens` / `_store_tokens_in_cache`. -/
def tokenDataOf (cfg : AuthConfig) (s : AuthState) : TokenData :=
  ⟨s.access_token, s.refresh_token, s.token_expires, cfg.device_id⟩

/-- `AuthService._store_tokens_in_cache`:
`time_left = max(0, int(self.token_expires - time.time()))`,
`ttl = min(time_left, 7*24*3600)`, stored only when `ttl > 0`. -/
def storeTokensInCache (cfg : AuthConfig) (s : AuthState) (now : ℚ) : AuthState :=
  let timeLeft : ℤ := max 0 (pyTrunc (s.token_expires - now))
  let ttl : ℤ := min timeLeft SEVEN_DAYS
  if 0 < ttl then
    let c := store_in_cache s.cache (authKey cfg)
      (CacheVal.tok (tokenDataOf cfg s)) (ttl : ℚ) now
    { s with cache := c }
  else s

/-- `AuthService._save_tokens`: write the token file, store the tokens in
the cache, then `_save_device_id` stores the device id with a 7-day TTL. -/
def saveTokens (cfg : AuthConfig) (s : AuthState) (now : ℚ) : AuthState :=
  let s1 := { s with tokenFile := some (tokenDataOf cfg s) }
  let s2 := storeTokensInCache cfg s1 now
  let c := store_in_cache s2.cache (deviceKey cfg)
    (CacheVal.str cfg.device_id) (SEVEN_DAYS : ℚ) now
  { s2 with cache := c }

/-- The body of `AuthService.login` after the valid-token short-circuit:
credential check, init request, credential exchange, token extraction (in
source statement order, so a raise after a partial assignment keeps the
partial assignment), `_save_tokens`. -/
def loginProto (cfg : AuthConfig) (env : NetEnv) (now : ℚ) (s : AuthState) :
    Bool × AuthState :=
  if cfg.username = "" ∨ cfg.password = "" then (false, s)
  else
    match env.initResp with
    | NetResult.exn => (false, s)
    | NetResult.resp su tk =>
      if su = false then (false, s)
      else
        match tk with
        | none => (false, s)            -- KeyError "token" in the init response
        | some ti =>
          match ti.accessToken with
          | none => (false, s)          -- KeyError "accessToken"
          | some _tmp =>
            match env.loginResp with
            | NetResult.exn => (false, s)
            | NetResult.resp su2 tk2 =>
              if su2 = false then (false, s)
              else
                match tk2 with
                | none => (false, s)
                | some t =>
                  match t.accessToken with
                  | none => (false, s)
                  | some a =>
                    let s1 := { s with access_token := some a }
                    match t.refreshToken with
                    | none => (false, s1)   -- raise after one assignment
                    | some rt =>
                      let s2 := { s1 with refresh_token := some rt }
                      match t.expiresIn with
                      | none => (false, s2) -- raise after two assignments
                      | some e =>
                        let s3 := { s2 with token_expires := now + e / 1000 }
                        (true, saveTokens cfg s3 now)

/-- `AuthService.login` with the recursive call to
`refresh_access_token` abstracted (source lines 282-285): if a truthy
refresh token is held and the expiry is beyond the margin, delegate to the
refresh; otherwise run the login protocol.  Entering emits `loginAttempt`. -/
def loginCore (cfg : AuthConfig) (env : NetEnv) (now : ℚ) (s : AuthState)
    (refreshFn : AuthState → OpResult) : OpResult :=
  if truthyStr s.refresh_token = true ∧
      TOKEN_REFRESH_BEFORE_EXPIRY + now < s.token_expires then
    let r := refreshFn s
    ⟨r.ret, r.st, AEvent.loginAttempt :: r.evs⟩
  else
    let pr := loginProto cfg env now s
    ⟨pr.1, pr.2, [AEvent.loginAttempt]⟩

/-- The network part of `AuthService.refresh_access_token` (source lines
428-472) with the fallback `login()` abstracted.  A `success: false`
response clears the cached entry and falls back to login (emitting
`cacheInvalidated`); an exception — including a `KeyError` while extracting
the token fields, which keeps any partial assignment — falls back to login
without touching the cache. -/
def refreshNet (cfg : AuthConfig) (env : NetEnv) (now : ℚ) (s : AuthState)
    (loginFn : AuthState → OpResult) : OpResult :=
  match env.refreshResp with
  | NetResult.exn => loginFn s
  | NetResult.resp su tk =>
    if su = false then
      let s1 := { s with cache := (clear_cache s.cache (some (authKey cfg))).2 }
      let r := loginFn s1
      ⟨r.ret, r.st, AEvent.cacheInvalidated :: r.evs⟩
    else
      match tk with
      | none => loginFn s
      | some t =>
        match t.accessToken with
        | none => loginFn s
        | some a =>
          let s1 := { s with access_token := some a }
          match t.refreshToken with
          | none => loginFn s1
          | some rt =>
            let s2 := { s1 with refresh_token := some rt }
            match t.expiresIn with
            | none => loginFn s2
            | some e =>
              let s3 := { s2 with token_expires := now + e / 1000 }
              ⟨true, saveTokens cfg s3 now, []⟩

/-- `AuthService.refresh_access_token` with the fallback `login()`
abstracted: no refresh token delegates to login; an expiry beyond the margin
is a no-op success; then the cached token set is consulted (the fetch
function is `lambda: None`, so a miss changes nothing) and adopted when its
recorded `expires` is beyond the margin; otherwise the network refresh runs.
A cached value that is a truthy non-dict would raise uncaught in the source
(`token_data.get` on it); theorems exclude that region via `authCacheWF`. -/
def refreshCore (cfg : AuthConfig) (env : NetEnv) (now : ℚ) (s : AuthState)
    (loginFn : AuthState → OpResult) : OpResult :=
  if truthyStr s.refresh_token = false then loginFn s
  else if TOKEN_REFRESH_BEFORE_EXPIRY + now < s.token_expires then ⟨true, s, []⟩
  else
    match (get_from_cache s.cache (authKey cfg) now none DEFAULT_CACHE_TIMEOUT).data with
    | some (CacheVal.tok td) =>
      if TOKEN_REFRESH_BEFORE_EXPIRY + now < td.expires then
        ⟨true,
          { s with access_token := td.access_token,
                   refresh_token := td.refresh_token,
                   token_expires := td.expires }, []⟩
      else refreshNet cfg env now s loginFn
    | _ => refreshNet cfg env now s loginFn

/-- Unreachable bottom of the (semantically bounded) mutual recursion
between `login` and `refresh_access_token`. -/
def loginStub : AuthState → OpResult := fun s => ⟨false, s, [AEvent.loginAttempt]⟩

/-- Entry point `AuthService.login()`.  The recursion
login → refresh → login → refresh is cut with a stub at a depth the
source can never reach (the inner refresh returns on its margin check
whenever it is invoked from the login short-circuit). -/
def login (cfg : AuthConfig) (env : NetEnv) (now : ℚ) (s : AuthState) : OpResult :=
  loginCore cfg env now s (fun s1 => refreshCore cfg env now s1 loginStub)

/-- Entry point `AuthService.refresh_access_token()`. -/
def refresh_access_token (cfg : AuthConfig) (env : NetEnv) (now : ℚ)
    (s : AuthState) : OpResult :=
  refreshCore cfg env now s
    (fun s1 => loginCore cfg env now s1
      (fun s2 => refreshCore cfg env now s2 loginStub))

/-- The header dict built by `AuthService.get_auth_headers` (it has exactly
these three entries). -/
structure AuthHeaders where
  authorization : String
  host : String
  userAgent : String
deriving DecidableEq, Repr

/-- `AuthService.get_auth_headers`: `None` when the refresh fails, otherwise
the bearer/host/user-agent dict built from the state after the refresh. -/
def getAuthHeaders (cfg : AuthConfig) (env : NetEnv) (now : ℚ) (s : AuthState) :
    Option AuthHeaders × AuthState :=
  let r := refresh_access_token cfg env now s
  if r.ret = true then
    (some ⟨"Bearer " ++ pyStrOpt r.st.access_token, netloc cfg.base_url,
           cfg.user_agent⟩, r.st)
  else (none, r.st)

/-- `AuthService.logout`: null the token triple, clear the account's cache
entry, remove the token file (a missing file is skipped; removal succeeds in
this model), return `True`. -/
def logout (cfg : AuthConfig) (s : AuthState) : Bool × AuthState :=
  let s1 := { s with access_token := none, refresh_token := none,
                     token_expires := (0 : ℚ) }
  let s2 := { s1 with cache := (clear_cache s1.cache (some (authKey cfg))).2 }
  (true, { s2 with tokenFile := none })

/-- The cached token set satisfies the refresh (source lines 409-416): the
read-through lookup of the account key yields a token dict whose recorded
`expires` is beyond the margin. -/
def cacheSatisfies (cfg : AuthConfig) (s : AuthState) (now : ℚ) : Prop :=
  ∃ td,
    (get_from_cache s.cache (authKey cfg) now none DEFAULT_CACHE_TIMEOUT).data
      = some (CacheVal.tok td) ∧
    TOKEN_REFRESH_BEFORE_EXPIRY + now < td.expires

/-- Python falsiness of a cached value (`if token_data and ...`). -/
def pyFalsyVal : CacheVal → Bool
  | CacheVal.emptyDict => true
  | CacheVal.str s => s.isEmpty
  | CacheVal.nat n => n == 0
  | CacheVal.tok _ => false

/-- Well-formedness of the account's cache entry: any stored value is a
token dict or falsy.  On a truthy non-dict the source would raise an
uncaught `AttributeError` at line 410, a region the embedding does not
model. -/
def authCacheWF (cfg : AuthConfig) (s : AuthState) : Prop :=
  ∀ v, s.cache.cache (authKey cfg) = some v →
    (∃ td, v = CacheVal.tok td) ∨ pyFalsyVal v = true

/-- The credential-exchange response forces the mid-extraction raise of
source lines 369-371: `success: true` with a token object that has an
`accessToken` but is missing `refreshToken` or `expiresIn`. -/
def exchangeMalformed (env : NetEnv) : Prop :=
  ∃ t, env.loginResp = NetResult.resp true (some t) ∧
    t.accessToken.isSome = true ∧
    (t.refreshToken = none ∨ t.expiresIn = none)

/-! ## Helper lemmas -/

/-- A list with a character appended ends with that character. -/
lemma isSuffixOf_concat (l : List Char) (a : Char) :
    [a].isSuffixOf (l ++ [a]) = true := by
  simp [List.isSuffixOf, List.reverse_append, List.isPrefixOf]

/-- `pre ++ "*"` ends with `"*"` in the model's `str.endswith`. -/
lemma pyEndsWith_star (pre : String) : pyEndsWith (pre ++ "*") "*" = true := by
  have h : (pre ++ "*").data = pre.data ++ ['*'] := String.data_append pre "*"
  simp only [pyEndsWith, h]
  exact isSuffixOf_concat pre.data '*'

/-- Slicing the trailing `"*"` off `pre ++ "*"` gives back `pre`. -/
lemma pyDropLast_star (pre : String) : pyDropLast (pre ++ "*") = pre := by
  have h : (pre ++ "*").data = pre.data ++ ['*'] := String.data_append pre "*"
  simp only [pyDropLast, h, List.dropLast_concat]

/-- Every string starts with itself minus its last character. -/
lemma pyStartsWith_dropLast (s : String) :
    pyStartsWith s (pyDropLast s) = true := by
  simp only [pyStartsWith, pyDropLast]
  exact List.isPrefixOf_iff_prefix.mpr (List.dropLast_prefix s.data)

/-! ## Claim theorems -/

/-- C7: for every key and fetch function, when the lookup misses and the
fetch function returns null, the null result is not stored, `get_from_cache`
returns null, and a subsequent lookup of the same key at any later time (no
intervening store) invokes the fetch function again — no negative caching. -/
theorem c7_no_negative_caching (st : CacheState) (key : String)
    (now now2 dt dt2 : ℚ) (fr2 : Option CacheVal)
    (hmiss : ¬ ((st.cache key).isSome = true ∧ now < (st.expiry key).getD 0))
    (hle : now ≤ now2) :
    (get_from_cache st key now none dt).data = none ∧
    (get_from_cache st key now none dt).state = st ∧
    (get_from_cache st key now none dt).fetchInvoked = true ∧
    (get_from_cache (get_from_cache st key now none dt).state key now2 fr2
        dt2).fetchInvoked = true := by
  have hmiss2 : ¬ ((st.cache key).isSome = true ∧ now2 < (st.expiry key).getD 0) := by
    rintro ⟨h1, h2⟩
    exact hmiss ⟨h1, lt_of_le_of_lt hle h2⟩
  have h1 : get_from_cache st key now none dt = ⟨none, st, true⟩ := by
    unfold get_from_cache
    rw [if_neg hmiss]
  rw [h1]
  refine ⟨rfl, rfl, rfl, ?_⟩
  unfold get_from_cache
  rw [if_neg hmiss2]
  cases fr2 <;> rfl

/-- C7 witness: a concrete miss (empty cache) with a null fetch result. -/
theorem c7_no_negative_caching_wit :
    let st : CacheState := ⟨fun _ => none, fun _ => none⟩
    (get_from_cache st "k" 0 none 3600).data = none ∧
    (get_from_cache st "k" 0 none 3600).state = st ∧
    (get_from_cache st "k" 0 none 3600).fetchInvoked = true ∧
    (get_from_cache (get_from_cache st "k" 0 none 3600).state "k" 1 none
        3600).fetchInvoked = true :=
  c7_no_negative_caching ⟨fun _ => none, fun _ => none⟩ "k" 0 1 3600 3600 none
    (by norm_num) (by norm_num)

/-- C8: `get_from_cache` serves from the cache (without invoking the fetch
function) exactly when the key is physically stored and its recorded expiry
is strictly in the future; a key with no expiry record defaults to 0 and is
treated as absent.  Clear-all re-initializes to the four category keys,
which carry no expiry record, so a lookup of any of them invokes the fetch
function. -/
theorem c8_cache_presence (st : CacheState) (key : String) (now dt : ℚ)
    (fr : Option CacheVal) (hnow : 0 ≤ now) :
    ((get_from_cache st key now fr dt).fetchInvoked = false ↔
      (st.cache key).isSome = true ∧ ∃ e, st.expiry key = some e ∧ now < e) ∧
    ((get_from_cache st key now fr dt).fetchInvoked = false →
      (get_from_cache st key now fr dt).data = st.cache key ∧
      (get_from_cache st key now fr dt).state = st) ∧
    (clear_cache st none).1 = true ∧ (clear_cache st none).2 = initCache ∧
    (∀ k, k = "channels" ∨ k = "streams" ∨ k = "epg" ∨ k = "devices" →
      (initCache.cache k).isSome = true ∧ initCache.expiry k = none ∧
      (get_from_cache initCache k now fr dt).fetchInvoked = true) := by
  have hcond : ((st.cache key).isSome = true ∧ now < (st.expiry key).getD 0) ↔
      ((st.cache key).isSome = true ∧ ∃ e, st.expiry key = some e ∧ now < e) := by
    constructor
    · rintro ⟨h1, h2⟩
      refine ⟨h1, ?_⟩
      cases hx : st.expiry key with
      | none =>
        rw [hx] at h2
        exact absurd h2 (not_lt.mpr hnow)
      | some e =>
        rw [hx] at h2
        exact ⟨e, rfl, h2⟩
    · rintro ⟨h1, e, hx, h2⟩
      rw [hx]
      exact ⟨h1, h2⟩
  have hinit : ∀ k, k = "channels" ∨ k = "streams" ∨ k = "epg" ∨ k = "devices" →
      (initCache.cache k).isSome = true ∧ initCache.expiry k = none ∧
      (get_from_cache initCache k now fr dt).fetchInvoked = true := by
    rintro k hk
    have hmiss : ¬ ((initCache.cache k).isSome = true ∧
        now < (initCache.expiry k).getD 0) := by
      rintro ⟨-, h2⟩
      exact absurd h2 (not_lt.mpr hnow)
    have hget : (get_from_cache initCache k now fr dt).fetchInvoked = true := by
      unfold get_from_cache
      rw [if_neg hmiss]
      cases fr <;> rfl
    rcases hk with rfl | rfl | rfl | rfl <;> exact ⟨rfl, rfl, hget⟩
  by_cases hc : (st.cache key).isSome = true ∧ now < (st.expiry key).getD 0
  · have h1 : get_from_cache st key now fr dt = ⟨st.cache key, st, false⟩ := by
      unfold get_from_cache
      rw [if_pos hc]
    rw [h1]
    exact ⟨by simpa using hcond.mp hc, fun _ => ⟨rfl, rfl⟩, rfl, rfl, hinit⟩
  · have h1 : (get_from_cache st key now fr dt).fetchInvoked = true := by
      unfold get_from_cache
      rw [if_neg hc]
      cases fr <;> rfl
    rw [h1]
    refine ⟨?_, by simp, rfl, rfl, hinit⟩
    simp only [Bool.true_eq_false, false_iff]
    exact fun h => hc (hcond.mpr h)

/-- C8 witness: at a concrete time the characterization holds, and the
fresh category key `"channels"` is present without expiry and still triggers
the fetch. -/
theorem c8_cache_presence_wit :
    let st : CacheState := ⟨fun _ => none, fun _ => none⟩
    ((get_from_cache st "k" 7 none 3600).fetchInvoked = false ↔
      (st.cache "k").isSome = true ∧ ∃ e, st.expiry "k" = some e ∧ (7:ℚ) < e) ∧
    ((get_from_cache st "k" 7 none 3600).fetchInvoked = false →
      (get_from_cache st "k" 7 none 3600).data = st.cache "k" ∧
      (get_from_cache st "k" 7 none 3600).state = st) ∧
    (clear_cache st none).1 = true ∧ (clear_cache st none).2 = initCache ∧
    (∀ k, k = "channels" ∨ k = "streams" ∨ k = "epg" ∨ k = "devices" →
      (initCache.cache k).isSome = true ∧ initCache.expiry k = none ∧
      (get_from_cache initCache k 7 none 3600).fetchInvoked = true) :=
  c8_cache_presence ⟨fun _ => none, fun _ => none⟩ "k" 7 3600 none (by norm_num)

/-- C9: for every cache state whose expiry records only cover stored keys
(an invariant of every reachable state) and a wildcard argument
`pre ++ "*"` that is not itself a stored key, `clear_cache` returns `True`
and removes exactly the stored values and expiry records of keys starting
with `pre`, leaving every other key's value and expiry unchanged. -/
theorem c9_wildcard_clear (st : CacheState) (pre : String)
    (hcov : ∀ k, (st.expiry k).isSome = true → (st.cache k).isSome = true)
    (hlit : st.cache (pre ++ "*") = none) :
    (clear_cache st (some (pre ++ "*"))).1 = true ∧
    ∀ k, ((clear_cache st (some (pre ++ "*"))).2.cache k
            = if pyStartsWith k pre = true then none else st.cache k) ∧
         ((clear_cache st (some (pre ++ "*"))).2.expiry k
            = if pyStartsWith k pre = true then none else st.expiry k) := by
  have hlit2 : ¬ ((st.cache (pre ++ "*")).isSome = true) := by
    rw [hlit]
    simp
  have hres : clear_cache st (some (pre ++ "*")) =
      (true,
        ⟨fun k => if pyStartsWith k pre = true then none else st.cache k,
         fun k =>
           if pyStartsWith k pre = true ∧ (st.cache k).isSome = true then none
           else st.expiry k⟩) := by
    simp only [clear_cache]
    rw [if_neg hlit2, if_pos (pyEndsWith_star pre)]
    simp only [pyDropLast_star]
  rw [hres]
  dsimp only
  refine ⟨rfl, fun k => ⟨rfl, ?_⟩⟩
  by_cases hp : pyStartsWith k pre = true
  · rw [if_pos hp]
    by_cases hs : (st.cache k).isSome = true
    · rw [if_pos ⟨hp, hs⟩]
    · rw [if_neg (fun h => hs h.2)]
      rcases hx : st.expiry k with - | e
      · rfl
      · exact absurd (hcov k (by rw [hx]; rfl)) hs
  · rw [if_neg hp, if_neg (fun h => hp h.1)]

/-- C9 witness: Scenario D — clearing `"channel_cz_*"` with keys
`channel_cz_1`, `channel_cz_2`, `channel_sk_1` stored removes exactly the
two `channel_cz_` keys. -/
theorem c9_wildcard_clear_wit :
    let st : CacheState :=
      ⟨fun k =>
         if k = "channel_cz_1" ∨ k = "channel_cz_2" ∨ k = "channel_sk_1" then
           some (CacheVal.nat 1)
         else none,
       fun k =>
         if k = "channel_cz_1" ∨ k = "channel_cz_2" ∨ k = "channel_sk_1" then
           some 1000
         else none⟩
    ((clear_cache st (some ("channel_cz_" ++ "*"))).1 = true ∧
     ∀ k, ((clear_cache st (some ("channel_cz_" ++ "*"))).2.cache k
             = if pyStartsWith k "channel_cz_" = true then none else st.cache k) ∧
          ((clear_cache st (some ("channel_cz_" ++ "*"))).2.expiry k
             = if pyStartsWith k "channel_cz_" = true then none else st.expiry k)) ∧
    pyStartsWith "channel_cz_1" "channel_cz_" = true ∧
    pyStartsWith "channel_cz_2" "channel_cz_" = true ∧
    pyStartsWith "channel_sk_1" "channel_cz_" = false := by
  refine ⟨?_, by decide, by decide, by decide⟩
  apply c9_wildcard_clear
  · intro k h
    by_cases h1 : k = "channel_cz_1" ∨ k = "channel_cz_2" ∨ k = "channel_sk_1"
    · simp only [if_pos h1]
      rfl
    · simp only [if_neg h1] at h
      exact absurd h (by simp)
  · decide

/-- C10: logout is idempotent — it returns `True` both times (in particular
when already logged out) and, after the second call, the in-memory token
triple, the account's cache entry (value and expiry), and the persisted
token file are identical to their values after a single call. -/
theorem c10_logout_idempotent (cfg : AuthConfig) (s : AuthState) :
    (logout cfg s).1 = true ∧
    (logout cfg (logout cfg s).2).1 = true ∧
    ((logout cfg (logout cfg s).2).2.access_token
        = (logout cfg s).2.access_token ∧
     (logout cfg (logout cfg s).2).2.refresh_token
        = (logout cfg s).2.refresh_token ∧
     (logout cfg (logout cfg s).2).2.token_expires
        = (logout cfg s).2.token_expires ∧
     (logout cfg (logout cfg s).2).2.tokenFile = (logout cfg s).2.tokenFile ∧
     (logout cfg (logout cfg s).2).2.cache.cache (authKey cfg)
        = (logout cfg s).2.cache.cache (authKey cfg) ∧
     (logout cfg (logout cfg s).2).2.cache.expiry (authKey cfg)
        = (logout cfg s).2.cache.expiry (authKey cfg)) := by
  -- after any `clear_cache st (some k)`, the value at `k` is gone
  have hval : ∀ (st : CacheState) (k : String),
      (clear_cache st (some k)).2.cache k = none := by
    intro st k
    simp only [clear_cache]
    by_cases h1 : (st.cache k).isSome = true
    · rw [if_pos h1]
      simp
    · rw [if_neg h1]
      by_cases h2 : pyEndsWith k "*" = true
      · rw [if_pos h2]
        dsimp only
        simp only [if_pos (pyStartsWith_dropLast k)]
      · rw [if_neg h2]
        simpa using h1
  -- clearing a key whose value is already gone leaves value and expiry at
  -- that key unchanged
  have hstable : ∀ (st : CacheState) (k : String), st.cache k = none →
      (clear_cache st (some k)).2.cache k = st.cache k ∧
      (clear_cache st (some k)).2.expiry k = st.expiry k := by
    intro st k hk
    have h1 : ¬ ((st.cache k).isSome = true) := by
      rw [hk]
      simp
    simp only [clear_cache]
    rw [if_neg h1]
    by_cases h2 : pyEndsWith k "*" = true
    · rw [if_pos h2]
      dsimp only
      constructor
      · simp only [if_pos (pyStartsWith_dropLast k), hk]
      · rw [if_neg]
        rintro ⟨-, hs⟩
        exact h1 hs
    · rw [if_neg h2]
      exact ⟨rfl, rfl⟩
  have h1 := hval s.cache (authKey cfg)
  have h2 := hstable (logout cfg s).2.cache (authKey cfg) h1
  exact ⟨rfl, rfl, rfl, rfl, rfl, rfl, h2.1, h2.2⟩

/-! ## Auth-service helper lemmas -/

/-- On every failing run of the login protocol the in-memory expiry is
unchanged, and unless the credential-exchange response forces the
mid-extraction raise, the whole state is unchanged. -/
lemma loginProto_fail_spec (cfg : AuthConfig) (env : NetEnv) (now : ℚ)
    (s : AuthState) :
    (loginProto cfg env now s).1 = false →
    (loginProto cfg env now s).2.token_expires = s.token_expires ∧
    (¬ exchangeMalformed env → (loginProto cfg env now s).2 = s) := by
  unfold loginProto
  split
  · exact fun _ => ⟨rfl, fun _ => rfl⟩
  · split
    · exact fun _ => ⟨rfl, fun _ => rfl⟩
    · split
      · exact fun _ => ⟨rfl, fun _ => rfl⟩
      · split
        · exact fun _ => ⟨rfl, fun _ => rfl⟩
        · split
          · exact fun _ => ⟨rfl, fun _ => rfl⟩
          · split
            · exact fun _ => ⟨rfl, fun _ => rfl⟩
            · split
              · exact fun _ => ⟨rfl, fun _ => rfl⟩
              · split
                · exact fun _ => ⟨rfl, fun _ => rfl⟩
                · split
                  · exact fun _ => ⟨rfl, fun _ => rfl⟩
                  · split
                    · rename_i su2 hsu tk2 t hl xacc aval hacc xrt hrt
                      intro _
                      refine ⟨rfl, fun hne => absurd ?_ hne⟩
                      have hsu2 : su2 = true := by simpa using hsu
                      rw [hsu2] at hl
                      exact ⟨t, hl, by rw [hacc]; rfl, Or.inl hrt⟩
                    · split
                      · rename_i su2 hsu tk2 t hl xacc aval hacc xrt rtval hrt xei hei
                        intro _
                        refine ⟨rfl, fun hne => absurd ?_ hne⟩
                        have hsu2 : su2 = true := by simpa using hsu
                        rw [hsu2] at hl
                        exact ⟨t, hl, by rw [hacc]; rfl, Or.inr hei⟩
                      · intro h
                        exact absurd h (by simp)

/-- `_save_tokens` never touches the in-memory expiry. -/
lemma saveTokens_token_expires (cfg : AuthConfig) (s : AuthState) (now : ℚ) :
    (saveTokens cfg s now).token_expires = s.token_expires := by
  simp only [saveTokens, storeTokensInCache]
  split <;> rfl

/-- A fully-formed `success: true` refresh response updates the token triple
and saves the tokens. -/
lemma refreshNet_success (cfg : AuthConfig) (env : NetEnv) (now : ℚ)
    (s : AuthState) (loginFn : AuthState → OpResult) (t : TokenResp)
    (a rt : String) (e : ℚ)
    (hr : env.refreshResp = NetResult.resp true (some t))
    (ha : t.accessToken = some a) (hrtk : t.refreshToken = some rt)
    (he : t.expiresIn = some e) :
    refreshNet cfg env now s loginFn =
      ⟨true, saveTokens cfg
        { s with access_token := some a, refresh_token := some rt,
                 token_expires := now + e / 1000 } now, []⟩ := by
  simp [refreshNet, hr, ha, hrtk, he]

/-- When a refresh token is held, the expiry is at or below the margin, and
the cache does not satisfy the refresh, `refresh_access_token` proceeds to
the network part. -/
lemma refreshCore_to_net (cfg : AuthConfig) (env : NetEnv) (now : ℚ)
    (s : AuthState) (loginFn : AuthState → OpResult)
    (hrt : truthyStr s.refresh_token = true)
    (hexp : ¬ (TOKEN_REFRESH_BEFORE_EXPIRY + now < s.token_expires))
    (hcache : ¬ cacheSatisfies cfg s now) :
    refreshCore cfg env now s loginFn = refreshNet cfg env now s loginFn := by
  simp only [refreshCore]
  rw [if_neg (by simp [hrt]), if_neg hexp]
  rcases hg : (get_from_cache s.cache (authKey cfg) now none
      DEFAULT_CACHE_TIMEOUT).data with - | v
  · rfl
  · cases v with
    | tok td =>
      dsimp only
      rw [if_neg]
      intro h
      exact hcache ⟨td, hg, h⟩
    | emptyDict => rfl
    | str s2 => rfl
    | nat n => rfl

/-! ## Concrete fixtures used by witnesses and counterexamples -/

/-- A cache with nothing stored. -/
def emptyCache : CacheState := ⟨fun _ => none, fun _ => none⟩

/-- A concrete configuration with valid credentials. -/
def cfgCZ : AuthConfig := ⟨"u", "p", "cz", "https://czgo.magio.tv", "UA", "dev"⟩

/-- A concrete configuration with an empty username. -/
def cfgNoUser : AuthConfig := ⟨"", "p", "cz", "https://czgo.magio.tv", "UA", "dev"⟩

/-- A network oracle where every request raises. -/
def envExn : NetEnv := ⟨NetResult.exn, NetResult.exn, NetResult.exn⟩

/-- A network oracle whose credential exchange answers `success: true` with
a token object missing `refreshToken` and `expiresIn`. -/
def envMalformed : NetEnv :=
  ⟨NetResult.resp true (some ⟨some "tmp", none, none⟩),
   NetResult.resp true (some ⟨some "A", none, none⟩),
   NetResult.exn⟩

/-- A network oracle whose credential exchange succeeds with
`expiresIn = 0` milliseconds. -/
def envShortExpiry : NetEnv :=
  ⟨NetResult.resp true (some ⟨some "tmp", none, none⟩),
   NetResult.resp true (some ⟨some "A", some "R", some 0⟩),
   NetResult.exn⟩

/-- A network oracle where all three endpoints succeed with fully-formed
tokens (`expiresIn` 61000 ms for login, 60000 ms for refresh). -/
def envGood : NetEnv :=
  ⟨NetResult.resp true (some ⟨some "t0", none, none⟩),
   NetResult.resp true (some ⟨some "A", some "R", some 61000⟩),
   NetResult.resp true (some ⟨some "A2", some "R2", some 60000⟩)⟩

/-- C1 (amended): when the token is past the refresh margin, the cache does
not satisfy the refresh, and the network refresh fails, `Login` is attempted
exactly once before the result is returned; the cached token entry is
invalidated (before that login) only when the upstream answered
`success: false` — on a raised request the cache is left untouched. -/
theorem c1_amended (cfg : AuthConfig) (env : NetEnv) (now : ℚ) (s : AuthState)
    (hrt : truthyStr s.refresh_token = true)
    (hexp : ¬ (TOKEN_REFRESH_BEFORE_EXPIRY + now < s.token_expires))
    (hcache : ¬ cacheSatisfies cfg s now) (_hwf : authCacheWF cfg s) :
    (env.refreshResp = NetResult.exn →
      (refresh_access_token cfg env now s).evs = [AEvent.loginAttempt]) ∧
    (∀ tk, env.refreshResp = NetResult.resp false tk →
      (refresh_access_token cfg env now s).evs
        = [AEvent.cacheInvalidated, AEvent.loginAttempt]) := by
  have hnet : refresh_access_token cfg env now s =
      refreshNet cfg env now s
        (fun s1 => loginCore cfg env now s1
          (fun s2 => refreshCore cfg env now s2 loginStub)) := by
    unfold refresh_access_token
    exact refreshCore_to_net cfg env now s _ hrt hexp hcache
  rw [hnet]
  constructor
  · intro hr
    simp only [refreshNet, hr]
    simp only [loginCore]
    rw [if_neg (fun h => hexp h.2)]
  · intro tk hr
    simp only [refreshNet, hr]
    rw [if_pos trivial]
    dsimp only
    simp only [loginCore]
    rw [if_neg]
    rintro ⟨-, hm⟩
    exact hexp hm

/-- C1 witness: a concrete state past the margin with an unsatisfying cache
and a `success: false` refresh response. -/
theorem c1_amended_wit :
    let s : AuthState := ⟨none, some "r", 0, emptyCache, none⟩
    let env : NetEnv := ⟨NetResult.exn, NetResult.exn, NetResult.resp false none⟩
    (env.refreshResp = NetResult.exn →
      (refresh_access_token cfgCZ env 5 s).evs = [AEvent.loginAttempt]) ∧
    (∀ tk, env.refreshResp = NetResult.resp false tk →
      (refresh_access_token cfgCZ env 5 s).evs
        = [AEvent.cacheInvalidated, AEvent.loginAttempt]) :=
  c1_amended cfgCZ ⟨NetResult.exn, NetResult.exn, NetResult.resp false none⟩ 5
    ⟨none, some "r", 0, emptyCache, none⟩ rfl
    (by norm_num [TOKEN_REFRESH_BEFORE_EXPIRY])
    (by rintro ⟨td, h, -⟩; simp [cacheSatisfies, get_from_cache, emptyCache] at h)
    (by intro v h; simp [emptyCache] at h)

/-- C1 counterexample: with a stale cached token entry present and the
refresh request raising, the fallback login runs exactly once but the cache
entry is NOT invalidated, contradicting the claim's "the cached token entry
is invalidated" for the exception failure mode (source lines 465-472 have
no `clear_cache`, unlike the `success: false` branch at line 451). -/
theorem c1_cex :
    let s : AuthState :=
      ⟨none, some "r", 0,
       ⟨fun k => if k = "auth_tokens_cz" then
            some (CacheVal.tok ⟨none, some "old", 0, "dev"⟩) else none,
        fun k => if k = "auth_tokens_cz" then some 50 else none⟩, none⟩
    (refresh_access_token cfgCZ envExn 100 s).ret = false ∧
    (refresh_access_token cfgCZ envExn 100 s).evs = [AEvent.loginAttempt] ∧
    (refresh_access_token cfgCZ envExn 100 s).st.cache.cache (authKey cfgCZ)
      = some (CacheVal.tok ⟨none, some "old", 0, "dev"⟩) := by
  refine ⟨?_, ?_, ?_⟩ <;>
  · repeat first
    | simp [refresh_access_token, refreshCore, refreshNet, loginCore, loginProto,
        get_from_cache, truthyStr, cfgCZ, envExn, TOKEN_REFRESH_BEFORE_EXPIRY,
        DEFAULT_CACHE_TIMEOUT, authKey, show "r".isEmpty = false from rfl]
    | norm_num

/-- C2 (amended): when the valid-token short-circuit of `login` does not
apply (no truthy refresh token, or expiry at or below the margin), empty
credentials make `login` return `False` and leave the state unchanged. -/
theorem c2_amended (cfg : AuthConfig) (env : NetEnv) (now : ℚ) (s : AuthState)
    (hcred : cfg.username = "" ∨ cfg.password = "")
    (hsc : ¬ (truthyStr s.refresh_token = true ∧
      TOKEN_REFRESH_BEFORE_EXPIRY + now < s.token_expires)) :
    (login cfg env now s).ret = false ∧ (login cfg env now s).st = s := by
  simp only [login, loginCore]
  rw [if_neg hsc]
  dsimp only
  simp only [loginProto]
  rw [if_pos hcred]
  exact ⟨rfl, rfl⟩

/-- C2 witness: empty username, no token state. -/
theorem c2_amended_wit :
    (login cfgNoUser envExn 0 ⟨none, none, 0, emptyCache, none⟩).ret = false ∧
    (login cfgNoUser envExn 0 ⟨none, none, 0, emptyCache, none⟩).st
      = ⟨none, none, 0, emptyCache, none⟩ :=
  c2_amended cfgNoUser envExn 0 ⟨none, none, 0, emptyCache, none⟩ (Or.inl rfl)
    (by rintro ⟨h, -⟩; simp [truthyStr] at h)

/-- C2 counterexample: with an empty username but a truthy refresh token and
an expiry beyond the margin, `login` returns `True` — the valid-token
short-circuit (source line 283) runs before the credential check (line 288),
so the claim's "returns failure regardless of any token state" is false. -/
theorem c2_cex :
    cfgNoUser.username = "" ∧
    (login cfgNoUser envExn 0 ⟨none, some "r", 1000, emptyCache, none⟩).ret
      = true := by
  refine ⟨rfl, ?_⟩
  repeat first
    | simp [login, loginCore, refreshCore, truthyStr, cfgNoUser, envExn, emptyCache,
        TOKEN_REFRESH_BEFORE_EXPIRY, show "r".isEmpty = false from rfl]
    | norm_num

/-- C3 (amended): a failed `login` never modifies `token_expires`, and
leaves the whole state (in particular the token triple) unchanged unless
the credential exchange answered `success: true` with a token object holding
an `accessToken` but missing `refreshToken` or `expiresIn` — in that one
malformed-response case the `KeyError` strikes between the sequential
assignments of source lines 369-371 and a partial token update survives. -/
theorem c3_amended (cfg : AuthConfig) (env : NetEnv) (now : ℚ) (s : AuthState)
    (hfail : (login cfg env now s).ret = false) :
    (login cfg env now s).st.token_expires = s.token_expires ∧
    (¬ exchangeMalformed env → (login cfg env now s).st = s) := by
  by_cases hsc : truthyStr s.refresh_token = true ∧
      TOKEN_REFRESH_BEFORE_EXPIRY + now < s.token_expires
  · exfalso
    have hret : (login cfg env now s).ret = true := by
      simp only [login, loginCore]
      rw [if_pos hsc]
      dsimp only
      simp only [refreshCore]
      rw [if_neg (by simp [hsc.1]), if_pos hsc.2]
    rw [hret] at hfail
    simp at hfail
  · have h1 : login cfg env now s =
        ⟨(loginProto cfg env now s).1, (loginProto cfg env now s).2,
         [AEvent.loginAttempt]⟩ := by
      simp only [login, loginCore]
      rw [if_neg hsc]
    rw [h1] at hfail ⊢
    exact loginProto_fail_spec cfg env now s hfail

/-- C3 witness: a login that fails because the init request raises leaves
the state exactly as it was. -/
theorem c3_amended_wit :
    (login cfgCZ envExn 0 ⟨none, none, 0, emptyCache, none⟩).st.token_expires = 0 ∧
    (¬ exchangeMalformed envExn →
      (login cfgCZ envExn 0 ⟨none, none, 0, emptyCache, none⟩).st
        = ⟨none, none, 0, emptyCache, none⟩) := by
  have hfail : (login cfgCZ envExn 0 ⟨none, none, 0, emptyCache, none⟩).ret
      = false := by
    repeat first
      | simp [login, loginCore, loginProto, truthyStr, cfgCZ, envExn]
      | norm_num
  exact c3_amended cfgCZ envExn 0 ⟨none, none, 0, emptyCache, none⟩ hfail

/-- C3 counterexample: a `success: true` exchange response whose token
object lacks `refreshToken` makes `login` return `False` with
`access_token` already overwritten — a partial mutation of the token triple
on a failed login, refuting the claimed atomicity. -/
theorem c3_cex :
    (login cfgCZ envMalformed 0 ⟨none, none, 0, emptyCache, none⟩).ret = false ∧
    (login cfgCZ envMalformed 0 ⟨none, none, 0, emptyCache, none⟩).st.access_token
      = some "A" ∧
    (⟨none, none, 0, emptyCache, none⟩ : AuthState).access_token = none := by
  refine ⟨?_, ?_, rfl⟩ <;>
  · repeat first
      | simp [login, loginCore, loginProto, truthyStr, cfgCZ, envMalformed, emptyCache,
          TOKEN_REFRESH_BEFORE_EXPIRY]
      | norm_num

/-- C4 (amended): a successful network token exchange (login or refresh)
records `token_expires = now + expiresIn / 1000`, and that value exceeds
`now + REFRESH_MARGIN` if and only if `expiresIn > 60000` milliseconds —
the code enforces no lower bound on the upstream-supplied duration. -/
theorem c4_amended (cfg : AuthConfig) (env : NetEnv) (now : ℚ) :
    (∀ (s : AuthState) (ti t : TokenResp) (a0 a rt : String) (e : ℚ),
      ¬ (truthyStr s.refresh_token = true ∧
          TOKEN_REFRESH_BEFORE_EXPIRY + now < s.token_expires) →
      ¬ (cfg.username = "" ∨ cfg.password = "") →
      env.initResp = NetResult.resp true (some ti) → ti.accessToken = some a0 →
      env.loginResp = NetResult.resp true (some t) →
      t.accessToken = some a → t.refreshToken = some rt → t.expiresIn = some e →
      (login cfg env now s).ret = true ∧
      (login cfg env now s).st.token_expires = now + e / 1000 ∧
      (TOKEN_REFRESH_BEFORE_EXPIRY + now <
          (login cfg env now s).st.token_expires ↔ 60000 < e)) ∧
    (∀ (s : AuthState) (t : TokenResp) (a rt : String) (e : ℚ),
      truthyStr s.refresh_token = true →
      ¬ (TOKEN_REFRESH_BEFORE_EXPIRY + now < s.token_expires) →
      ¬ cacheSatisfies cfg s now → authCacheWF cfg s →
      env.refreshResp = NetResult.resp true (some t) →
      t.accessToken = some a → t.refreshToken = some rt → t.expiresIn = some e →
      (refresh_access_token cfg env now s).ret = true ∧
      (refresh_access_token cfg env now s).st.token_expires = now + e / 1000 ∧
      (TOKEN_REFRESH_BEFORE_EXPIRY + now <
          (refresh_access_token cfg env now s).st.token_expires ↔ 60000 < e)) := by
  constructor
  · intro s ti t a0 a rt e hsc hcred hinit hacc0 hl hacc hrtk hei
    have hred : login cfg env now s =
        ⟨true, saveTokens cfg
          { s with access_token := some a, refresh_token := some rt,
                   token_expires := now + e / 1000 } now, [AEvent.loginAttempt]⟩ := by
      simp only [login, loginCore]
      rw [if_neg hsc]
      simp [loginProto, hinit, hacc0, hl, hacc, hrtk, hei, if_neg hcred]
    rw [hred]
    refine ⟨rfl, ?_, ?_⟩
    · rw [saveTokens_token_expires]
    · rw [saveTokens_token_expires]
      simp only [TOKEN_REFRESH_BEFORE_EXPIRY]
      constructor <;> intro h <;> [linarith; linarith]
  · intro s t a rt e hrt hexp hcache _hwf hr hacc hrtk hei
    have hred : refresh_access_token cfg env now s =
        ⟨true, saveTokens cfg
          { s with access_token := some a, refresh_token := some rt,
                   token_expires := now + e / 1000 } now, []⟩ := by
      unfold refresh_access_token
      rw [refreshCore_to_net cfg env now s _ hrt hexp hcache]
      exact refreshNet_success cfg env now s _ t a rt e hr hacc hrtk hei
    rw [hred]
    refine ⟨rfl, ?_, ?_⟩
    · rw [saveTokens_token_expires]
    · rw [saveTokens_token_expires]
      simp only [TOKEN_REFRESH_BEFORE_EXPIRY]
      constructor <;> intro h <;> [linarith; linarith]

/-- C4 witness: a successful login with `expiresIn = 61000` ms (above the
margin) and a successful refresh with `expiresIn = 60000` ms (exactly at
the boundary, hence not above the margin). -/
theorem c4_amended_wit :
    ((login cfgCZ envGood 5 ⟨none, none, 0, emptyCache, none⟩).ret = true ∧
     (login cfgCZ envGood 5 ⟨none, none, 0, emptyCache, none⟩).st.token_expires
        = 5 + 61000 / 1000 ∧
     (TOKEN_REFRESH_BEFORE_EXPIRY + 5 <
        (login cfgCZ envGood 5 ⟨none, none, 0, emptyCache, none⟩).st.token_expires
        ↔ (60000:ℚ) < 61000)) ∧
    ((refresh_access_token cfgCZ envGood 5
        ⟨none, some "r", 0, emptyCache, none⟩).ret = true ∧
     (refresh_access_token cfgCZ envGood 5
        ⟨none, some "r", 0, emptyCache, none⟩).st.token_expires = 5 + 60000 / 1000 ∧
     (TOKEN_REFRESH_BEFORE_EXPIRY + 5 <
        (refresh_access_token cfgCZ envGood 5
          ⟨none, some "r", 0, emptyCache, none⟩).st.token_expires
        ↔ (60000:ℚ) < 60000)) := by
  constructor
  · exact (c4_amended cfgCZ envGood 5).1 ⟨none, none, 0, emptyCache, none⟩
      ⟨some "t0", none, none⟩ ⟨some "A", some "R", some 61000⟩ "t0" "A" "R" 61000
      (by rintro ⟨h, -⟩; simp [truthyStr] at h)
      (by decide) rfl rfl rfl rfl rfl rfl
  · exact (c4_amended cfgCZ envGood 5).2 ⟨none, some "r", 0, emptyCache, none⟩
      ⟨some "A2", some "R2", some 60000⟩ "A2" "R2" 60000 rfl
      (by norm_num [TOKEN_REFRESH_BEFORE_EXPIRY])
      (by rintro ⟨td, h, -⟩; simp [cacheSatisfies, get_from_cache, emptyCache] at h)
      (by intro v h; simp [emptyCache] at h) rfl rfl rfl rfl

/-- C4 counterexample: the upstream may answer a successful exchange with
`expiresIn = 0`, and the code records `token_expires = now`, which is not
strictly greater than `now + REFRESH_MARGIN` — refuting the claim's "for
every value of expiresIn the upstream may return". -/
theorem c4_cex :
    (login cfgCZ envShortExpiry 5 ⟨none, none, 0, emptyCache, none⟩).ret = true ∧
    (login cfgCZ envShortExpiry 5
        ⟨none, none, 0, emptyCache, none⟩).st.token_expires = 5 ∧
    ¬ (5 + TOKEN_REFRESH_BEFORE_EXPIRY <
        (login cfgCZ envShortExpiry 5
          ⟨none, none, 0, emptyCache, none⟩).st.token_expires) := by
  refine ⟨?_, ?_, ?_⟩ <;>
  · repeat first
      | simp [login, loginCore, loginProto, truthyStr, cfgCZ, envShortExpiry,
          emptyCache, TOKEN_REFRESH_BEFORE_EXPIRY, saveTokens, storeTokensInCache,
          store_in_cache, pyTrunc, tokenDataOf, SEVEN_DAYS, authKey, deviceKey]
      | norm_num

/-- C5 (amended): `_store_tokens_in_cache` stores nothing when less than
one full second of validity remains (in particular when
`token_expires - now <= 0`); otherwise it stores the token set with TTL
`min(int(token_expires - now), 7*24*3600)` — the remaining time truncated
to whole seconds — so the cache entry's expiry never exceeds the token's
own expiry and never exceeds 7 days from the store time. -/
theorem c5_amended (cfg : AuthConfig) (s : AuthState) (now : ℚ) :
    (s.token_expires - now < 1 → storeTokensInCache cfg s now = s) ∧
    (1 ≤ s.token_expires - now →
      (storeTokensInCache cfg s now).cache.cache (authKey cfg)
          = some (CacheVal.tok (tokenDataOf cfg s)) ∧
      (storeTokensInCache cfg s now).cache.expiry (authKey cfg)
          = some (now + ((min (pyTrunc (s.token_expires - now)) SEVEN_DAYS : ℤ) : ℚ)) ∧
      now + ((min (pyTrunc (s.token_expires - now)) SEVEN_DAYS : ℤ) : ℚ)
          ≤ s.token_expires ∧
      ((min (pyTrunc (s.token_expires - now)) SEVEN_DAYS : ℤ) : ℚ) ≤ 604800) := by
  have hS : (0:ℤ) < SEVEN_DAYS := by norm_num [SEVEN_DAYS]
  constructor
  · intro hlt
    have httl : pyTrunc (s.token_expires - now) ≤ 0 := by
      unfold pyTrunc
      split
      · have : ⌊s.token_expires - now⌋ < 1 := Int.floor_lt.mpr (by exact_mod_cast hlt)
        omega
      · rename_i hge
        exact Int.ceil_le.mpr (by exact_mod_cast le_of_lt (lt_of_not_le hge))
    have hcond : ¬ ((0:ℤ) < min (max 0 (pyTrunc (s.token_expires - now)))
        SEVEN_DAYS) := by
      omega
    simp only [storeTokensInCache]
    rw [if_neg hcond]
  · intro hge
    have h0 : (0:ℚ) ≤ s.token_expires - now := le_trans (by norm_num) hge
    have hfl : pyTrunc (s.token_expires - now) = ⌊s.token_expires - now⌋ := by
      unfold pyTrunc
      rw [if_pos h0]
    have h1 : 1 ≤ ⌊s.token_expires - now⌋ := Int.le_floor.mpr (by exact_mod_cast hge)
    have hmax : max 0 (pyTrunc (s.token_expires - now))
        = pyTrunc (s.token_expires - now) := by
      rw [hfl]; omega
    have hpos : 0 < min (pyTrunc (s.token_expires - now)) SEVEN_DAYS := by
      rw [hfl]; omega
    simp only [storeTokensInCache]
    rw [hmax, if_pos hpos]
    refine ⟨by simp [store_in_cache], by simp [store_in_cache], ?_, ?_⟩
    · have h2 : ((min (pyTrunc (s.token_expires - now)) SEVEN_DAYS : ℤ) : ℚ)
          ≤ s.token_expires - now := by
        calc ((min (pyTrunc (s.token_expires - now)) SEVEN_DAYS : ℤ) : ℚ)
            ≤ ((pyTrunc (s.token_expires - now) : ℤ) : ℚ) := by
              exact_mod_cast min_le_left _ _
          _ = ((⌊s.token_expires - now⌋ : ℤ) : ℚ) := by rw [hfl]
          _ ≤ s.token_expires - now := Int.floor_le _
      linarith
    · have h3 : (min (pyTrunc (s.token_expires - now)) SEVEN_DAYS : ℤ) ≤ 604800 := by
        have hm := min_le_right (pyTrunc (s.token_expires - now)) SEVEN_DAYS
        have hv : SEVEN_DAYS = (604800:ℤ) := rfl
        omega
      exact_mod_cast h3

/-- C5 witness: half a second of validity stores nothing; ten seconds of
validity stores the token set with the capped TTL and both ceilings hold. -/
theorem c5_amended_wit :
    (storeTokensInCache cfgCZ ⟨none, none, 1/2, emptyCache, none⟩ 0
        = ⟨none, none, 1/2, emptyCache, none⟩) ∧
    ((storeTokensInCache cfgCZ ⟨some "a", some "r", 10, emptyCache, none⟩ 0).cache.cache
        (authKey cfgCZ)
        = some (CacheVal.tok
            (tokenDataOf cfgCZ ⟨some "a", some "r", 10, emptyCache, none⟩)) ∧
     (storeTokensInCache cfgCZ ⟨some "a", some "r", 10, emptyCache, none⟩ 0).cache.expiry
        (authKey cfgCZ)
        = some (0 + ((min (pyTrunc
            ((⟨some "a", some "r", 10, emptyCache, none⟩ : AuthState).token_expires - 0))
            SEVEN_DAYS : ℤ) : ℚ)) ∧
     0 + ((min (pyTrunc
            ((⟨some "a", some "r", 10, emptyCache, none⟩ : AuthState).token_expires - 0))
            SEVEN_DAYS : ℤ) : ℚ)
        ≤ (⟨some "a", some "r", 10, emptyCache, none⟩ : AuthState).token_expires ∧
     ((min (pyTrunc
            ((⟨some "a", some "r", 10, emptyCache, none⟩ : AuthState).token_expires - 0))
            SEVEN_DAYS : ℤ) : ℚ) ≤ 604800) := by
  constructor
  · exact (c5_amended cfgCZ ⟨none, none, 1/2, emptyCache, none⟩ 0).1 (by norm_num)
  · exact (c5_amended cfgCZ ⟨some "a", some "r", 10, emptyCache, none⟩ 0).2
      (by norm_num)

/-- C5 counterexample: with 1.5 seconds of validity remaining the entry IS
stored, but with TTL 1 (the `int()` truncation of source line 233), not the
claimed `min(token_expires - now, 7*24*3600) = 3/2` — so "the TTL used
equals min(token_expires - now, 7*24*3600)" is false; the truncation also
means values with `0 < token_expires - now < 1` are not stored at all. -/
theorem c5_cex :
    (storeTokensInCache cfgCZ ⟨some "a", some "r", 3/2, emptyCache, none⟩ 0).cache.expiry
        (authKey cfgCZ) = some 1 ∧
    min ((3:ℚ)/2 - 0) (7 * 24 * 3600) = 3/2 ∧ ((1:ℚ) ≠ 3/2) := by
  refine ⟨?_, by norm_num [min_def], by norm_num⟩
  repeat first
    | simp [storeTokensInCache, store_in_cache, pyTrunc, tokenDataOf, SEVEN_DAYS,
        authKey, cfgCZ, emptyCache]
    | norm_num

/-- C6 (amended): `get_auth_headers` returns the absent signal exactly when
the internal refresh fails, and on success returns a dict of exactly the
three headers — `Authorization` of the form `"Bearer " + str(access_token)`,
`Host` equal to the netloc of the configured base URL, and the configured
`User-Agent`; the access token is whatever is stored and is not checked for
non-emptiness. -/
theorem c6_amended (cfg : AuthConfig) (env : NetEnv) (now : ℚ) (s : AuthState)
    (_hwf : authCacheWF cfg s) :
    ((getAuthHeaders cfg env now s).1 = none ↔
      (refresh_access_token cfg env now s).ret = false) ∧
    (∀ hd, (getAuthHeaders cfg env now s).1 = some hd →
      hd.authorization = "Bearer "
          ++ pyStrOpt (refresh_access_token cfg env now s).st.access_token ∧
      hd.host = netloc cfg.base_url ∧ hd.userAgent = cfg.user_agent) := by
  simp only [getAuthHeaders]
  by_cases hret : (refresh_access_token cfg env now s).ret = true
  · rw [if_pos hret]
    constructor
    · simp [hret]
    · rintro hd hh
      injection hh with hh
      subst hh
      exact ⟨rfl, rfl, rfl⟩
  · rw [if_neg hret]
    constructor
    · simp only [Bool.not_eq_true] at hret
      simp [hret]
    · rintro hd hh
      exact Option.noConfusion hh

/-- C6 witness: a valid token state produces exactly the three headers. -/
theorem c6_amended_wit :
    let s : AuthState := ⟨some "tok", some "r", 1000, emptyCache, none⟩
    ((getAuthHeaders cfgCZ envExn 0 s).1 = none ↔
      (refresh_access_token cfgCZ envExn 0 s).ret = false) ∧
    (∀ hd, (getAuthHeaders cfgCZ envExn 0 s).1 = some hd →
      hd.authorization = "Bearer "
          ++ pyStrOpt (refresh_access_token cfgCZ envExn 0 s).st.access_token ∧
      hd.host = netloc cfgCZ.base_url ∧ hd.userAgent = cfgCZ.user_agent) :=
  c6_amended cfgCZ envExn 0 ⟨some "tok", some "r", 1000, emptyCache, none⟩
    (by intro v h; simp [emptyCache] at h)

/-- C6 counterexample: with an empty stored access token and a still-valid
refresh margin, the refresh succeeds and the headers carry
`Authorization = "Bearer "` — an empty access token, refuting the claim's
"with a non-empty access token" (the code never checks it). -/
theorem c6_cex :
    (getAuthHeaders cfgCZ envExn 0 ⟨some "", some "r", 1000, emptyCache, none⟩).1
      = some ⟨"Bearer " ++ "", "czgo.magio.tv", "UA"⟩ := by
  repeat first
    | simp [getAuthHeaders, refresh_access_token, refreshCore, truthyStr, pyStrOpt,
        cfgCZ, envExn, emptyCache, TOKEN_REFRESH_BEFORE_EXPIRY, netloc, afterScheme,
        show "r".isEmpty = false from rfl]
    | norm_num

end StreamEdge
